import Mathlib

/-!
A shallow embedding of `seventeenlands/retry_utils.py` (the retry-with-backoff
engine) together with the single observable behaviour of
`seventeenlands/logging_utils.py` that the engine uses (the `logger.exception`
call inside `_should_retry_error`).

Modelling choices:

* Durations (`datetime.timedelta`) and instants (`datetime.datetime`) are whole
  numbers of seconds (`Nat`).  Python truthiness of a `timedelta` value
  (`if td:`) is `td ≠ 0`, and truthiness of an `Optional[timedelta]` is
  "not `None` and not zero"; both appear literally in the source
  (`if max_total_retry_duration:` and `if max_retry_delay and ...`).
* The callback, the wall clock and both validators are oracles carried in an
  `Env`: `callback n` is the outcome of the `n`-th invocation of `callback()`,
  `timeAt n` is what `datetime.datetime.utcnow()` returns at the top of the
  `n`-th loop iteration, and `startTime` is what it returns when the deadline
  is computed at function entry.
* Exceptions are values of a type `E`; a Python callable that may raise is a
  function into `Except E`.  `response_validator` may itself raise (its call
  sits inside the `try:` block), so it returns `Except E Bool`.
* The unbounded `while True:` loop is run with explicit fuel; `none` means the
  loop is still running after that many iterations.  A `RunResult` records the
  terminal outcome, the list of `time.sleep` durations performed (in order),
  and the list of errors passed to `error_validator`.  In `retry_api_call`
  each `error_validator` invocation is exactly one error-severity
  `logger.exception` log entry.
-/

namespace RetryUtils

/-- Outcome of executing the body of the `try:` block for one loop iteration of
`retry_until_successful`. -/
inductive TryResult (T E : Type) where
  /-- The `return result` statement ran. -/
  | value (v : T)
  /-- The `raise RetryLimitExceededError()` statement ran. -/
  | limitExceeded
  /-- An exception `e` escaped the `try:` body (raised by `callback()` or by
  `response_validator(result)`). -/
  | excepted (e : E)
  /-- The `try:` body completed without returning or raising (unacceptable
  result, not the last call). -/
  | fallthrough
deriving DecidableEq

/-- Net effect of one full loop iteration (the `try`/`except` block). -/
inductive StepResult (T E : Type) where
  /-- The function returns `v`. -/
  | returned (v : T)
  /-- The function terminates by raising `RetryLimitExceededError`. -/
  | retryLimitExceeded
  /-- The function terminates by re-raising the operation error `e`. -/
  | raised (e : E)
  /-- Control falls through to `time.sleep` and the backoff update. -/
  | retryAgain
deriving DecidableEq

/-- Terminal outcome of a run of `retry_until_successful`. -/
inductive Outcome (T E : Type) where
  /-- Normal return with value `v`. -/
  | returned (v : T)
  /-- Terminated by raising `RetryLimitExceededError`. -/
  | retryLimitExceeded
  /-- Terminated by re-raising the error `e`. -/
  | raised (e : E)
deriving DecidableEq

/-- Observable trace of one terminated run: the outcome, the durations passed
to `time.sleep` (in order), and the errors passed to `error_validator`
(in order).  In `retry_api_call` every entry of `evCalls` is one
error-severity `logger.exception` log entry. -/
structure RunResult (T E : Type) where
  outcome : Outcome T E
  sleeps : List Nat
  evCalls : List E
deriving DecidableEq

/-- Decidable equality for `Except`, used to evaluate concrete runs. -/
instance instDecEqExcept [DecidableEq E] [DecidableEq T] :
    DecidableEq (Except E T) := fun x y =>
  match x, y with
  | .ok a, .ok b =>
    if h : a = b then isTrue (by rw [h])
    else isFalse (by intro hc; cases hc; exact h rfl)
  | .ok _, .error _ => isFalse (by intro hc; cases hc)
  | .error _, .ok _ => isFalse (by intro hc; cases hc)
  | .error a, .error b =>
    if h : a = b then isTrue (by rw [h])
    else isFalse (by intro hc; cases hc; exact h rfl)

/-- The oracles a run of `retry_until_successful` interacts with. -/
structure Env (T E : Type) where
  /-- Value of `datetime.datetime.utcnow()` at function entry (used for the
  deadline computation). -/
  startTime : Nat
  /-- Value of `datetime.datetime.utcnow()` at the top of loop iteration `n`. -/
  timeAt : Nat → Nat
  /-- Result of the `n`-th invocation of `callback()`. -/
  callback : Nat → Except E T
  /-- The `response_validator` argument; it may itself raise. -/
  response_validator : T → Except E Bool
  /-- The `error_validator` argument. -/
  error_validator : E → Bool

/-- The delay/deadline parameters of `retry_until_successful`. -/
structure Args where
  initial_retry_delay : Nat
  max_retry_delay : Option Nat
  max_total_retry_duration : Option Nat

/-- The `last_call_at` variable: `None`, unless `max_total_retry_duration` is
truthy (present and nonzero), in which case it is
`utcnow() + max_total_retry_duration`. -/
def last_call_at (startTime : Nat) : Option Nat → Option Nat
  | some d => if d ≠ 0 then some (startTime + d) else none
  | none => none

/-- The `is_last_call` loop-top check:
`last_call_at is not None and last_call_at < datetime.datetime.utcnow()`. -/
def is_last_call (lca : Option Nat) (now : Nat) : Bool :=
  match lca with
  | some t => decide (t < now)
  | none => false

/-- Body of the `try:` block of one loop iteration:
`result = callback()`, then `if response_validator(result): return result`,
`elif is_last_call: raise RetryLimitExceededError()`, else fall through. -/
def try_body (is_last : Bool) (cb : Except E T)
    (rv : T → Except E Bool) : TryResult T E :=
  match cb with
  | .error e => .excepted e
  | .ok result =>
    match rv result with
    | .error e => .excepted e
    | .ok true => .value result
    | .ok false => if is_last then .limitExceeded else .fallthrough

/-- One full loop iteration: the `try:` body followed by the
`except Exception as e:` handler, which runs
`if is_last_call or not error_validator(e): raise e`.  The second component
lists the errors passed to `error_validator` during the iteration
(`[]` or `[e]`; the `or` short-circuits, so `error_validator` is not consulted
when `is_last_call` holds).  A `RetryLimitExceededError` raised in the `try:`
body is caught by the handler and immediately re-raised, because it is only
ever raised when `is_last_call` holds; `error_validator` never sees it. -/
def attempt_step (is_last : Bool) (cb : Except E T)
    (rv : T → Except E Bool) (ev : E → Bool) : StepResult T E × List E :=
  match try_body is_last cb rv with
  | .value v => (.returned v, [])
  | .limitExceeded => (.retryLimitExceeded, [])
  | .excepted e =>
    if is_last then (.raised e, [])
    else if ev e then (.retryAgain, [e])
    else (.raised e, [e])
  | .fallthrough => (.retryAgain, [])

/-- The backoff update run after the sleep: `next_retry_delay *= 2`, then
`if max_retry_delay and max_retry_delay < next_retry_delay:` clamp to
`max_retry_delay` (note the truthiness test: a zero `max_retry_delay` never
clamps). -/
def next_delay_update (maxd : Option Nat) (d : Nat) : Nat :=
  let doubled := d * 2
  match maxd with
  | some m => if m ≠ 0 ∧ m < doubled then m else doubled
  | none => doubled

/-- The `while True:` loop of `retry_until_successful`, with explicit fuel.
`n` is the iteration counter, `delay` the current `next_retry_delay`.
Returns `none` when the fuel runs out with the loop still running. -/
def run_loop (env : Env T E) (lca : Option Nat) (maxd : Option Nat) :
    Nat → Nat → Nat → Option (RunResult T E)
  | 0, _, _ => none
  | fuel + 1, n, delay =>
    match attempt_step (is_last_call lca (env.timeAt n)) (env.callback n)
        env.response_validator env.error_validator with
    | (StepResult.returned v, evs) => some ⟨Outcome.returned v, [], evs⟩
    | (StepResult.retryLimitExceeded, evs) =>
      some ⟨Outcome.retryLimitExceeded, [], evs⟩
    | (StepResult.raised e, evs) => some ⟨Outcome.raised e, [], evs⟩
    | (StepResult.retryAgain, evs) =>
      (run_loop env lca maxd fuel (n + 1) (next_delay_update maxd delay)).map
        (fun r => ⟨r.outcome, delay :: r.sleeps, evs ++ r.evCalls⟩)

/-- `retry_until_successful`: compute `last_call_at`, initialize
`next_retry_delay = initial_retry_delay`, and run the loop. -/
def retry_until_successful (env : Env T E) (args : Args) (fuel : Nat) :
    Option (RunResult T E) :=
  run_loop env (last_call_at env.startTime args.max_total_retry_duration)
    args.max_retry_delay fuel 0 args.initial_retry_delay

/-- Exceptions observable by `retry_api_call`'s error validator.
`connectionError` stands for any instance of a subclass of
`requests.exceptions.ConnectionError`; `otherError` for any other `Exception`.
The payload distinguishes distinct exception objects. -/
inductive ApiError where
  | connectionError (payload : Nat)
  | otherError (payload : Nat)
deriving DecidableEq

/-- The `_should_retry_error` closure of `retry_api_call`: it first runs
`logger.exception(...)` (one error-severity log entry per invocation — in a
run this is recorded by the error's membership in `RunResult.evCalls`), then
returns `True` iff the error's class is a subclass of
`requests.exceptions.ConnectionError`. -/
def _should_retry_error (error : ApiError) : Bool :=
  match error with
  | .connectionError _ => true
  | .otherError _ => false

/-- `_INITIAL_RETRY_DELAY = datetime.timedelta(seconds=1)`. -/
def _INITIAL_RETRY_DELAY : Nat := 1

/-- `_MAX_RETRY_DELAY = datetime.timedelta(minutes=10)`. -/
def _MAX_RETRY_DELAY : Nat := 10 * 60

/-- `_MAX_TOTAL_RETRY_DURATION = datetime.timedelta(hours=24)`. -/
def _MAX_TOTAL_RETRY_DURATION : Nat := 24 * 60 * 60

/-- `retry_api_call`: delegates to `retry_until_successful` with
`_should_retry_error` and the fixed module-level parameters. -/
def retry_api_call (startTime : Nat) (timeAt : Nat → Nat)
    (callback : Nat → Except ApiError T)
    (response_validator : T → Except ApiError Bool) (fuel : Nat) :
    Option (RunResult T ApiError) :=
  retry_until_successful
    ⟨startTime, timeAt, callback, response_validator, _should_retry_error⟩
    ⟨_INITIAL_RETRY_DELAY, some _MAX_RETRY_DELAY, some _MAX_TOTAL_RETRY_DURATION⟩
    fuel

/-- The value of `next_retry_delay` at the `j`-th sleep of a run that starts
with delay `d`: `j`-fold application of `next_delay_update`. -/
def iter_delay (maxd : Option Nat) (d : Nat) : Nat → Nat
  | 0 => d
  | j + 1 => iter_delay maxd (next_delay_update maxd d) j

/-- Modelled from the spec: the delay schedule the spec promises, namely
`initial_delay * 2 ^ i` "each clamped to `max_delay` if set".  Compared with
`iter_delay`, which is derived from the source's backoff update. -/
def spec_clamped_delay (initial : Nat) (maxd : Option Nat)
    (i : Nat) : Nat :=
  match maxd with
  | some m => min (initial * 2 ^ i) m
  | none => initial * 2 ^ i

/-- Concatenation of a list of lists (trace fragments). -/
def concat_lists : List (List α) → List α
  | [] => []
  | l :: ls => l ++ concat_lists ls

/-- Environment exercising a zero `max_total_retry_duration`: the callback
always returns `0`, which the response validator always rejects. -/
def c1Env : Env Nat Nat :=
  ⟨0, fun _ => 0, fun _ => .ok 0, fun _ => .ok false, fun _ => true⟩

/-- Arguments with `max_total_retry_duration = timedelta(0)`. -/
def c1Args : Args := ⟨1, none, some 0⟩

/-- Clock for the `retry_api_call` run whose deadline passes between the first
and second loop iterations (`_MAX_TOTAL_RETRY_DURATION = 86400`). -/
def c2TimeAt : Nat → Nat := fun n => if n = 0 then 0 else 90000

/-- Callback raising a distinct connection error on every invocation. -/
def c2Callback : Nat → Except ApiError Nat :=
  fun n => .error (.connectionError n)

/-- Response validator that accepts everything (never reached here). -/
def c2Validator : Nat → Except ApiError Bool := fun _ => .ok true

/-- Environment whose callback always returns `42` but whose response
validator always raises error `5`; error `5` is classified non-retryable. -/
def c3Env : Env Nat Nat :=
  ⟨0, fun _ => 0, fun _ => .ok 42, fun _ => .error 5, fun _ => false⟩

/-- Arguments with no deadline and no delay cap. -/
def c3Args : Args := ⟨1, none, none⟩

/-- Environment failing retryably twice (errors `0` and `1`) and then
returning the accepted value `7`. -/
def c4EnvW : Env Nat Nat :=
  ⟨0, fun _ => 0, fun n => if n < 2 then .error n else .ok 7,
    fun _ => .ok true, fun _ => true⟩

/-- Arguments with `initial_retry_delay = 1`, `max_retry_delay = 10`, no
deadline. -/
def c4ArgsW : Args := ⟨1, some 10, none⟩

/-- Environment whose first callback invocation raises the non-retryable
error `5`. -/
def c5EnvW : Env Nat Nat :=
  ⟨0, fun _ => 0, fun _ => .error 5, fun _ => .ok true, fun _ => false⟩

/-- Arguments with no deadline and no delay cap. -/
def c5ArgsW : Args := ⟨3, none, none⟩

/-- Environment with deadline `0 + 5`: iteration `0` happens at time `3`
(before the deadline) and raises retryable error `0`; iteration `1` happens at
time `10` (past the deadline) and raises retryable error `1`. -/
def c7EnvW : Env Nat Nat :=
  ⟨0, fun n => if n = 0 then 3 else 10, fun n => .error n,
    fun _ => .ok true, fun _ => true⟩

/-- Arguments with `max_total_retry_duration = 5`. -/
def c7ArgsW : Args := ⟨1, none, some 5⟩

/-- Environment whose callback always raises the non-retryable error `3`. -/
def c8EnvW : Env Nat Nat :=
  ⟨0, fun _ => 0, fun _ => .error 3, fun _ => .ok true, fun _ => false⟩

/-- Arguments with no deadline. -/
def c8ArgsW : Args := ⟨1, none, none⟩

/-- Environment whose first callback invocation returns the accepted
value `42`. -/
def c9EnvW : Env Nat Nat :=
  ⟨0, fun _ => 0, fun _ => .ok 42, fun _ => .ok true, fun _ => true⟩

/-- Arguments with no deadline. -/
def c9ArgsW : Args := ⟨1, none, none⟩

lemma iter_delay_succ_eq (maxd : Option Nat) (d : Nat) (j : Nat) :
    iter_delay maxd d (j + 1) = next_delay_update maxd (iter_delay maxd d j) := by
  induction j generalizing d with
  | zero => rfl
  | succ j ih => exact ih (next_delay_update maxd d)

lemma concat_lists_map_singleton (es : Nat → E) (l : List Nat) :
    concat_lists (l.map fun k => [es k]) = l.map es := by
  induction l with
  | nil => rfl
  | cons a l ih => simp [concat_lists, ih]

lemma iter_delay_clamped (initial : Nat) (maxd : Option Nat)
    (h1 : 0 < initial) (h2 : ∀ m, maxd = some m → initial ≤ m) (j : Nat) :
    iter_delay maxd initial j = spec_clamped_delay initial maxd j := by
  induction j with
  | zero =>
    cases maxd with
    | none => simp [iter_delay, spec_clamped_delay]
    | some m =>
      have hm := h2 m rfl
      simp [iter_delay, spec_clamped_delay, Nat.min_eq_left hm]
  | succ j ih =>
    rw [iter_delay_succ_eq, ih]
    cases maxd with
    | none =>
      simp [spec_clamped_delay, next_delay_update, Nat.pow_succ, Nat.mul_assoc]
    | some m =>
      have hm0 : 0 < m := Nat.lt_of_lt_of_le h1 (h2 m rfl)
      simp only [spec_clamped_delay, next_delay_update]
      rw [Nat.pow_succ, ← Nat.mul_assoc]
      generalize initial * 2 ^ j = a
      rcases Nat.le_total a m with hle | hle
      · rw [min_eq_left hle]
        rcases Nat.le_total (a * 2) m with hle2 | hle2
        · rw [min_eq_left hle2]
          split <;> omega
        · rw [min_eq_right hle2]
          split <;> omega
      · rw [min_eq_right hle]
        rw [min_eq_right (by omega : m ≤ a * 2)]
        split <;> omega

lemma attempt_step_returned_inv {il : Bool} {cb : Except E T}
    {rv : T → Except E Bool} {ev : E → Bool} {v : T} {evs : List E}
    (h : attempt_step il cb rv ev = (StepResult.returned v, evs)) :
    cb = .ok v ∧ rv v = .ok true := by
  cases cb with
  | error e =>
    cases il with
    | true => simp [attempt_step, try_body] at h
    | false => cases hev : ev e <;> simp [attempt_step, try_body, hev] at h
  | ok w =>
    cases hrv : rv w with
    | error e2 =>
      cases il with
      | true => simp [attempt_step, try_body, hrv] at h
      | false => cases hev : ev e2 <;> simp [attempt_step, try_body, hrv, hev] at h
    | ok b =>
      cases b with
      | true =>
        simp only [attempt_step, try_body, hrv, Prod.mk.injEq,
          StepResult.returned.injEq] at h
        obtain ⟨h1, -⟩ := h
        subst h1
        exact ⟨rfl, hrv⟩
      | false => cases il <;> simp [attempt_step, try_body, hrv] at h

lemma attempt_step_rle_inv {il : Bool} {cb : Except E T}
    {rv : T → Except E Bool} {ev : E → Bool} {evs : List E}
    (h : attempt_step il cb rv ev = (StepResult.retryLimitExceeded, evs)) :
    il = true ∧ ∃ v, cb = .ok v ∧ rv v = .ok false := by
  cases cb with
  | error e =>
    cases il with
    | true => simp [attempt_step, try_body] at h
    | false => cases hev : ev e <;> simp [attempt_step, try_body, hev] at h
  | ok w =>
    cases hrv : rv w with
    | error e2 =>
      cases il with
      | true => simp [attempt_step, try_body, hrv] at h
      | false => cases hev : ev e2 <;> simp [attempt_step, try_body, hrv, hev] at h
    | ok b =>
      cases b with
      | true => simp [attempt_step, try_body, hrv] at h
      | false =>
        cases il with
        | true => exact ⟨rfl, w, rfl, hrv⟩
        | false => simp [attempt_step, try_body, hrv] at h

lemma attempt_step_raised_inv {il : Bool} {cb : Except E T}
    {rv : T → Except E Bool} {ev : E → Bool} {e : E} {evs : List E}
    (h : attempt_step il cb rv ev = (StepResult.raised e, evs)) :
    (cb = .error e ∨ ∃ v, cb = .ok v ∧ rv v = .error e) ∧
      (il = false → ev e = false) := by
  cases cb with
  | error e2 =>
    cases il with
    | true =>
      simp [attempt_step, try_body] at h
      obtain ⟨rfl, -⟩ := h
      exact ⟨Or.inl rfl, fun hf => nomatch hf⟩
    | false =>
      cases hev : ev e2 with
      | true => simp [attempt_step, try_body, hev] at h
      | false =>
        simp [attempt_step, try_body, hev] at h
        obtain ⟨rfl, -⟩ := h
        exact ⟨Or.inl rfl, fun _ => hev⟩
  | ok w =>
    cases hrv : rv w with
    | error e2 =>
      cases il with
      | true =>
        simp [attempt_step, try_body, hrv] at h
        obtain ⟨rfl, -⟩ := h
        exact ⟨Or.inr ⟨w, rfl, hrv⟩, fun hf => nomatch hf⟩
      | false =>
        cases hev : ev e2 with
        | true => simp [attempt_step, try_body, hrv, hev] at h
        | false =>
          simp [attempt_step, try_body, hrv, hev] at h
          obtain ⟨rfl, -⟩ := h
          exact ⟨Or.inr ⟨w, rfl, hrv⟩, fun _ => hev⟩
    | ok b =>
      cases b with
      | true => simp [attempt_step, try_body, hrv] at h
      | false => cases il <;> simp [attempt_step, try_body, hrv] at h

lemma attempt_step_retry_error {il : Bool} {e : E}
    {rv : T → Except E Bool} {ev : E → Bool}
    (hil : il = false) (hev : ev e = true) :
    attempt_step il (Except.error e) rv ev = (StepResult.retryAgain, [e]) := by
  subst hil
  simp [attempt_step, try_body, hev]

lemma attempt_step_return_ok {il : Bool} {v : T}
    {rv : T → Except E Bool} {ev : E → Bool} (hrv : rv v = .ok true) :
    attempt_step il (Except.ok v) rv ev = (StepResult.returned v, []) := by
  simp [attempt_step, try_body, hrv]

lemma attempt_step_raise_last {e : E}
    {rv : T → Except E Bool} {ev : E → Bool} :
    attempt_step true (Except.error e) rv ev = (StepResult.raised e, []) := by
  simp [attempt_step, try_body]

lemma run_loop_retries (env : Env T E) (lca : Option Nat) (maxd : Option Nat)
    (fuel : Nat) :
    ∀ (M : Nat) (evs : Nat → List E) (n d : Nat),
      (∀ j, j < M →
        attempt_step (is_last_call lca (env.timeAt (n + j))) (env.callback (n + j))
          env.response_validator env.error_validator = (StepResult.retryAgain, evs j)) →
      run_loop env lca maxd (M + fuel) n d =
        (run_loop env lca maxd fuel (n + M) (iter_delay maxd d M)).map
          (fun r => ⟨r.outcome, (List.range M).map (iter_delay maxd d) ++ r.sleeps,
            concat_lists ((List.range M).map evs) ++ r.evCalls⟩) := by
  intro M
  induction M with
  | zero =>
    intro evs n d h
    simp only [Nat.zero_add, Nat.add_zero, iter_delay, List.range_zero,
      List.map_nil, concat_lists, List.nil_append]
    cases run_loop env lca maxd fuel n d <;> rfl
  | succ M ih =>
    intro evs n d h
    have hstep := h 0 (Nat.succ_pos M)
    rw [Nat.add_zero] at hstep
    have hf : M + 1 + fuel = (M + fuel) + 1 := by omega
    rw [hf]
    rw [run_loop, hstep]
    dsimp only
    have hrec : ∀ j, j < M →
        attempt_step (is_last_call lca (env.timeAt (n + 1 + j)))
          (env.callback (n + 1 + j)) env.response_validator env.error_validator =
          (StepResult.retryAgain, (fun k => evs (k + 1)) j) := by
      intro j hj
      have := h (j + 1) (by omega)
      rwa [show n + (j + 1) = n + 1 + j from by omega] at this
    rw [ih (fun k => evs (k + 1)) (n + 1) (next_delay_update maxd d) hrec]
    rw [Option.map_map]
    rw [show n + 1 + M = n + (M + 1) from by omega]
    rw [show iter_delay maxd d (M + 1) =
      iter_delay maxd (next_delay_update maxd d) M from rfl]
    congr 1
    funext r
    simp only [Function.comp_apply, List.range_succ_eq_map, List.map_cons,
      List.map_map, concat_lists, List.cons_append, List.append_assoc]
    rfl

lemma run_loop_some_inv (env : Env T E) (lca maxd : Option Nat) :
    ∀ (fuel n d : Nat) (r : RunResult T E),
      run_loop env lca maxd fuel n d = some r →
      ∃ i, n ≤ i ∧
        ((∃ v, r.outcome = Outcome.returned v ∧ env.callback i = .ok v ∧
            env.response_validator v = .ok true) ∨
         (r.outcome = Outcome.retryLimitExceeded ∧
            is_last_call lca (env.timeAt i) = true ∧
            ∃ v, env.callback i = .ok v ∧ env.response_validator v = .ok false) ∨
         (∃ e, r.outcome = Outcome.raised e ∧
            (env.callback i = .error e ∨
              ∃ v, env.callback i = .ok v ∧ env.response_validator v = .error e) ∧
            (is_last_call lca (env.timeAt i) = false →
              env.error_validator e = false))) := by
  intro fuel
  induction fuel with
  | zero => intro n d r h; simp [run_loop] at h
  | succ fuel ih =>
    intro n d r h
    rw [run_loop] at h
    rcases hA : attempt_step (is_last_call lca (env.timeAt n)) (env.callback n)
        env.response_validator env.error_validator with ⟨sr, evs⟩
    rw [hA] at h
    cases sr with
    | returned v =>
      obtain rfl : (⟨Outcome.returned v, [], evs⟩ : RunResult T E) = r :=
        Option.some.inj h
      obtain ⟨hcb, hrv⟩ := attempt_step_returned_inv hA
      exact ⟨n, Nat.le_refl n, Or.inl ⟨v, rfl, hcb, hrv⟩⟩
    | retryLimitExceeded =>
      obtain rfl : (⟨Outcome.retryLimitExceeded, [], evs⟩ : RunResult T E) = r :=
        Option.some.inj h
      obtain ⟨hil, v, hcb, hrv⟩ := attempt_step_rle_inv hA
      exact ⟨n, Nat.le_refl n, Or.inr (Or.inl ⟨rfl, hil, v, hcb, hrv⟩)⟩
    | raised e =>
      obtain rfl : (⟨Outcome.raised e, [], evs⟩ : RunResult T E) = r :=
        Option.some.inj h
      obtain ⟨hsrc, hev⟩ := attempt_step_raised_inv hA
      exact ⟨n, Nat.le_refl n, Or.inr (Or.inr ⟨e, rfl, hsrc, hev⟩)⟩
    | retryAgain =>
      rw [Option.map_eq_some'] at h
      obtain ⟨r0, h0, rfl⟩ := h
      obtain ⟨i, hi, hP⟩ := ih (n + 1) (next_delay_update maxd d) r0 h0
      exact ⟨i, by omega, hP⟩

lemma run_loop_c1_none : ∀ (fuel n d : Nat),
    run_loop c1Env none none fuel n d = none := by
  intro fuel
  induction fuel with
  | zero => intro n d; rfl
  | succ fuel ih =>
    intro n d
    rw [run_loop]
    have hstep : attempt_step (is_last_call none (c1Env.timeAt n))
        (c1Env.callback n) c1Env.response_validator c1Env.error_validator =
        (StepResult.retryAgain, []) := rfl
    rw [hstep]
    dsimp only
    rw [ih]
    rfl

lemma run_loop_one (env : Env T E) (lca maxd : Option Nat) (n d : Nat) :
    run_loop env lca maxd 1 n d =
      match attempt_step (is_last_call lca (env.timeAt n)) (env.callback n)
          env.response_validator env.error_validator with
      | (StepResult.returned v, evs) => some ⟨Outcome.returned v, [], evs⟩
      | (StepResult.retryLimitExceeded, evs) =>
        some ⟨Outcome.retryLimitExceeded, [], evs⟩
      | (StepResult.raised e, evs) => some ⟨Outcome.raised e, [], evs⟩
      | (StepResult.retryAgain, _) => none := rfl

/-- C1: the claim expects that with `max_total_retry_duration` equal to a zero
duration and a callback whose result `response_validator` always rejects,
`retry_until_successful` raises `RetryLimitExceededError` on the first
iteration with zero sleeps.  The code does the opposite: the guard
`if max_total_retry_duration:` is false for a zero `timedelta` (Python
truthiness), so `last_call_at` stays `None`, `is_last_call` is always false,
and the loop retries forever — it never terminates at all, for any amount of
fuel. -/
theorem c1_zero_total_duration_loops_forever (fuel : Nat) :
    retry_until_successful c1Env c1Args fuel = none := by
  have hlca : last_call_at c1Env.startTime c1Args.max_total_retry_duration =
      none := by simp [last_call_at, c1Env, c1Args]
  rw [retry_until_successful, hlca]
  exact run_loop_c1_none fuel 0 c1Args.initial_retry_delay

/-- C2 counterexample: in this `retry_api_call` run the operation raises
connection errors on both iterations, but only the first error is logged
(passed to `_should_retry_error`): the deadline has passed by the second
iteration, so `is_last_call or not error_validator(e)` short-circuits and the
second error is propagated without being logged, contradicting the claim that
every error raised during the loop is logged. -/
theorem c2_unlogged_last_call_error_cex :
    retry_api_call 0 c2TimeAt c2Callback c2Validator 2 =
        some ⟨Outcome.raised (ApiError.connectionError 1), [1],
          [ApiError.connectionError 0]⟩ ∧
      c2Callback 1 = Except.error (ApiError.connectionError 1) ∧
      ApiError.connectionError 1 ∉ [ApiError.connectionError 0] :=
  ⟨by decide, rfl, by decide⟩

/-- C2 (amended): an error raised during an iteration whose `is_last_call`
check is false is passed to `_should_retry_error` (which logs it at error
severity) and the iteration retries exactly when the error is a
`requests.exceptions.ConnectionError`, propagating it after logging
otherwise; an error raised once `is_last_call` holds is propagated without
being logged or classified.  Retryability holds iff the error is a
connection error. -/
theorem c2_api_error_logging_and_classification (T : Type) (b : Bool)
    (e : ApiError) (rv : T → Except ApiError Bool) :
    attempt_step b (Except.error e) rv _should_retry_error =
        (if b then (StepResult.raised e, [])
         else if _should_retry_error e then (StepResult.retryAgain, [e])
         else (StepResult.raised e, [e])) ∧
      (_should_retry_error e = true ↔ ∃ p, e = ApiError.connectionError p) := by
  constructor
  · cases b <;> simp [attempt_step, try_body]
  · cases e <;> simp [_should_retry_error]

/-- C5: an error rejected by `error_validator` on the first attempt is
propagated unchanged from the first iteration, with zero sleeps, whatever the
deadline configuration. -/
theorem c5_nonretryable_first_attempt (env : Env T E) (args : Args) (e : E)
    (fuel : Nat) (hcb : env.callback 0 = Except.error e)
    (hev : env.error_validator e = false) :
    (retry_until_successful env args (fuel + 1)).map
      (fun r => (r.outcome, r.sleeps)) = some (Outcome.raised e, []) := by
  rw [retry_until_successful, run_loop, hcb]
  cases hil : is_last_call
      (last_call_at env.startTime args.max_total_retry_duration)
      (env.timeAt 0) with
  | true =>
    rw [attempt_step_raise_last]
    rfl
  | false =>
    have hstep : attempt_step false (Except.error e) env.response_validator
        env.error_validator = (StepResult.raised e, [e]) := by
      simp [attempt_step, try_body, hev]
    rw [hstep]
    rfl

/-- C5 witness: the concrete environment `c5EnvW` raising non-retryable
error `5` first. -/
theorem c5_nonretryable_first_attempt_witness :
    (retry_until_successful c5EnvW c5ArgsW 1).map
      (fun r => (r.outcome, r.sleeps)) = some (Outcome.raised 5, []) :=
  c5_nonretryable_first_attempt c5EnvW c5ArgsW 5 0 rfl rfl

/-- C9: with no deadline and a first callback result accepted by
`response_validator`, the value is returned with zero sleeps and no
`error_validator` calls. -/
theorem c9_first_success_no_sleep (env : Env T E) (args : Args) (v : T)
    (fuel : Nat) (hnd : args.max_total_retry_duration = none)
    (hcb : env.callback 0 = Except.ok v)
    (hrv : env.response_validator v = Except.ok true) :
    retry_until_successful env args (fuel + 1) =
      some ⟨Outcome.returned v, [], []⟩ := by
  rw [retry_until_successful, hnd, run_loop, hcb, attempt_step_return_ok hrv]

/-- C9 witness: the concrete environment `c9EnvW` succeeding immediately. -/
theorem c9_first_success_no_sleep_witness :
    retry_until_successful c9EnvW c9ArgsW 1 = some ⟨Outcome.returned 42, [], []⟩ :=
  c9_first_success_no_sleep c9EnvW c9ArgsW 42 0 rfl rfl rfl

/-- C6: with `initial_retry_delay = 1` and `max_retry_delay = 10`, the delay
sequence is `1, 2, 4, 8` and from the fifth value on it is pinned at `10`
(the doubling to 16 is clamped); moreover `next_delay_update` preserves
`delay ≤ 10`. -/
theorem c6_delay_clamp_invariant :
    (∀ i, i < 4 → iter_delay (some 10) 1 i = 2 ^ i) ∧
    (∀ i, 4 ≤ i → iter_delay (some 10) 1 i = 10) ∧
    (∀ d, d ≤ 10 → next_delay_update (some 10) d ≤ 10) := by
  refine ⟨by decide, ?_, ?_⟩
  · intro i hi
    induction i, hi using Nat.le_induction with
    | base => decide
    | succ i hi ih => rw [iter_delay_succ_eq, ih]; decide
  · intro d hd
    simp only [next_delay_update]
    split <;> omega

/-- C6 witness: concrete instances of the three clauses. -/
theorem c6_delay_clamp_invariant_witness :
    iter_delay (some 10) 1 3 = 2 ^ 3 ∧ iter_delay (some 10) 1 6 = 10 ∧
      next_delay_update (some 10) 10 ≤ 10 :=
  ⟨c6_delay_clamp_invariant.1 3 (by decide),
   c6_delay_clamp_invariant.2.1 6 (by decide),
   c6_delay_clamp_invariant.2.2 10 (by decide)⟩

/-- C10: an exception raised by `response_validator` is handled exactly like
one raised by `callback` itself — same step outcome, same `error_validator`
calls: classified by `error_validator`, propagated when non-retryable or on
the last call, absorbed into another retry otherwise. -/
theorem c10_validator_error_like_operation_error (b : Bool) (v : T) (e : E)
    (rv : T → Except E Bool) (ev : E → Bool) (h : rv v = Except.error e) :
    attempt_step b (Except.ok v) rv ev = attempt_step b (Except.error e) rv ev ∧
      attempt_step b (Except.ok v) rv ev =
        (if b then (StepResult.raised e, [])
         else if ev e then (StepResult.retryAgain, [e])
         else (StepResult.raised e, [e])) := by
  constructor <;> simp [attempt_step, try_body, h]

/-- C10 witness: a validator that raises error `3` on value `7`, with a
retryability predicate accepting everything. -/
theorem c10_validator_error_like_operation_error_witness :
    attempt_step false (Except.ok 7)
        (fun _ : Nat => (Except.error 3 : Except Nat Bool)) (fun _ : Nat => true) =
      attempt_step false (Except.error 3)
        (fun _ : Nat => (Except.error 3 : Except Nat Bool)) (fun _ : Nat => true) ∧
    attempt_step false (Except.ok 7)
        (fun _ : Nat => (Except.error 3 : Except Nat Bool)) (fun _ : Nat => true) =
      (StepResult.retryAgain, [3]) :=
  c10_validator_error_like_operation_error false 7 3 _ _ rfl

/-- C3 counterexample: a run whose callback never errors (it constantly
returns `42`) still terminates by propagating error `5`, because
`response_validator` raises it; the propagated error of this terminal failure
was not produced by the operation, contradicting the claim's second clause. -/
theorem c3_validator_error_cex :
    retry_until_successful c3Env c3Args 1 = some ⟨Outcome.raised 5, [], [5]⟩ ∧
      c3Env.callback = (fun _ => Except.ok 42) :=
  ⟨by decide, rfl⟩

/-- C3 (amended): `RetryLimitExceededError` is raised only when `is_last_call`
held at loop-top and that attempt produced a value rejected (without error) by
`response_validator`; every other terminal failure propagates an error
produced during an attempt — by the operation itself or by
`response_validator` applied to its result. -/
theorem c3_terminal_failure_characterization (env : Env T E) (args : Args)
    (fuel : Nat) (r : RunResult T E)
    (h : retry_until_successful env args fuel = some r) :
    (r.outcome = Outcome.retryLimitExceeded →
      ∃ i v, is_last_call
          (last_call_at env.startTime args.max_total_retry_duration)
          (env.timeAt i) = true ∧
        env.callback i = Except.ok v ∧
        env.response_validator v = Except.ok false) ∧
    (∀ e, r.outcome = Outcome.raised e →
      ∃ i, env.callback i = Except.error e ∨
        ∃ v, env.callback i = Except.ok v ∧
          env.response_validator v = Except.error e) := by
  rw [retry_until_successful] at h
  obtain ⟨i, -, hP⟩ := run_loop_some_inv env
    (last_call_at env.startTime args.max_total_retry_duration)
    args.max_retry_delay fuel 0 args.initial_retry_delay r h
  constructor
  · intro hrle
    rcases hP with ⟨v, hv, -, -⟩ | ⟨-, hil, v, hcb, hrv⟩ | ⟨e, he, -, -⟩
    · rw [hv] at hrle; cases hrle
    · exact ⟨i, v, hil, hcb, hrv⟩
    · rw [he] at hrle; cases hrle
  · intro e hre
    rcases hP with ⟨v, hv, -, -⟩ | ⟨hrl, -, -⟩ | ⟨e2, he2, hsrc, -⟩
    · rw [hv] at hre; cases hre
    · rw [hrl] at hre; cases hre
    · obtain rfl : e2 = e := by
        have := he2.symm.trans hre
        simpa using this
      exact ⟨i, hsrc⟩

/-- C3 witness: the counterexample environment instantiates the amended
characterization of a `raised` terminal failure. -/
theorem c3_terminal_failure_witness :
    ∃ i, c3Env.callback i = Except.error 5 ∨
      ∃ v, c3Env.callback i = Except.ok v ∧
        c3Env.response_validator v = Except.error 5 :=
  (c3_terminal_failure_characterization c3Env c3Args 1
    ⟨Outcome.raised 5, [], [5]⟩ (by decide)).2 5 rfl

/-- C8: with no `max_total_retry_duration`, `retry_until_successful` never
raises `RetryLimitExceededError` and never self-terminates on time: every
terminated run either returned a value accepted by `response_validator` or
propagated an error rejected by `error_validator`; any other configuration
keeps looping. -/
theorem c8_no_deadline_no_retry_limit (env : Env T E) (args : Args)
    (fuel : Nat) (r : RunResult T E)
    (hnd : args.max_total_retry_duration = none)
    (h : retry_until_successful env args fuel = some r) :
    r.outcome ≠ Outcome.retryLimitExceeded ∧
      (∀ e, r.outcome = Outcome.raised e → env.error_validator e = false) ∧
      (∀ v, r.outcome = Outcome.returned v →
        env.response_validator v = Except.ok true) := by
  rw [retry_until_successful, hnd] at h
  obtain ⟨i, -, hP⟩ := run_loop_some_inv env none args.max_retry_delay fuel 0
    args.initial_retry_delay r h
  refine ⟨?_, ?_, ?_⟩
  · intro hrle
    rcases hP with ⟨v, hv, -, -⟩ | ⟨-, hil, -⟩ | ⟨e, he, -, -⟩
    · rw [hv] at hrle; cases hrle
    · exact absurd hil (by simp [is_last_call])
    · rw [he] at hrle; cases hrle
  · intro e hre
    rcases hP with ⟨v, hv, -, -⟩ | ⟨hrl, -, -⟩ | ⟨e2, he2, -, himp⟩
    · rw [hv] at hre; cases hre
    · rw [hrl] at hre; cases hre
    · obtain rfl : e2 = e := by
        have := he2.symm.trans hre
        simpa using this
      exact himp rfl
  · intro v hv2
    rcases hP with ⟨v2, hv, hcb, hrv⟩ | ⟨hrl, -, -⟩ | ⟨e2, he2, -, -⟩
    · obtain rfl : v2 = v := by
        have := hv.symm.trans hv2
        simpa using this
      exact hrv
    · rw [hrl] at hv2; cases hv2
    · rw [he2] at hv2; cases hv2

/-- C8 witness: the non-retryable error `3` propagated by `c8EnvW` is indeed
rejected by its `error_validator`. -/
theorem c8_no_deadline_no_retry_limit_witness :
    c8EnvW.error_validator 3 = false :=
  (c8_no_deadline_no_retry_limit c8EnvW c8ArgsW 1 ⟨Outcome.raised 3, [], [3]⟩
    rfl (by decide)).2.1 3 rfl

/-- C4: an operation failing with retryable errors on its first `N`
invocations and then returning an accepted value makes the engine (with no
deadline and `initial_retry_delay ≤ max_retry_delay` when the cap is set)
perform exactly `N` sleeps of durations `initial * 2 ^ j` clamped to the cap,
then return the value. -/
theorem c4_backoff_sleep_schedule (env : Env T E) (args : Args) (N : Nat)
    (es : Nat → E) (v : T)
    (hnd : args.max_total_retry_duration = none)
    (hinit : 0 < args.initial_retry_delay)
    (hmax : ∀ m, args.max_retry_delay = some m → args.initial_retry_delay ≤ m)
    (hfail : ∀ j, j < N → env.callback j = Except.error (es j) ∧
      env.error_validator (es j) = true)
    (hsucc : env.callback N = Except.ok v)
    (hacc : env.response_validator v = Except.ok true) :
    retry_until_successful env args (N + 1) =
      some ⟨Outcome.returned v,
        (List.range N).map
          (spec_clamped_delay args.initial_retry_delay args.max_retry_delay),
        (List.range N).map es⟩ := by
  rw [retry_until_successful, hnd]
  have hlca : last_call_at env.startTime none = none := rfl
  rw [hlca]
  have hpre : ∀ j, j < N → attempt_step (is_last_call none (env.timeAt (0 + j)))
      (env.callback (0 + j)) env.response_validator env.error_validator =
      (StepResult.retryAgain, (fun k => [es k]) j) := by
    intro j hj
    rw [Nat.zero_add]
    obtain ⟨hcb, hev⟩ := hfail j hj
    rw [hcb]
    exact attempt_step_retry_error rfl hev
  rw [run_loop_retries env none args.max_retry_delay 1 N (fun k => [es k]) 0
    args.initial_retry_delay hpre]
  rw [Nat.zero_add, run_loop_one, hsucc, attempt_step_return_ok hacc]
  have hdelays : iter_delay args.max_retry_delay args.initial_retry_delay =
      spec_clamped_delay args.initial_retry_delay args.max_retry_delay :=
    funext (iter_delay_clamped _ _ hinit hmax)
  rw [hdelays]
  simp [concat_lists_map_singleton]

/-- C4 witness: two retryable failures then success, with `initial = 1` and
cap `10`: sleeps `[1, 2]`, then the value `7` is returned. -/
theorem c4_backoff_sleep_schedule_witness :
    retry_until_successful c4EnvW c4ArgsW 3 =
      some ⟨Outcome.returned 7,
        (List.range 2).map (spec_clamped_delay 1 (some 10)),
        (List.range 2).map (fun j => j)⟩ :=
  c4_backoff_sleep_schedule c4EnvW c4ArgsW 2 (fun j => j) 7 rfl (by decide)
    (fun m hm => by simp [c4ArgsW] at hm ⊢; omega) (by decide) (by decide) rfl

/-- C7: when the deadline elapses while the operation keeps failing with
retryable errors, the next iteration's `is_last_call` check holds and the
engine propagates that iteration's error instead of sleeping and retrying:
the run ends with exactly `i` sleeps (none added by the final iteration). -/
theorem c7_deadline_elapsed_propagates (env : Env T E) (args : Args) (D : Nat)
    (i : Nat) (es : Nat → E) (e : E)
    (hD : args.max_total_retry_duration = some D) (hD0 : D ≠ 0)
    (hpre : ∀ j, j < i → env.callback j = Except.error (es j) ∧
      env.error_validator (es j) = true ∧ env.timeAt j ≤ env.startTime + D)
    (hti : env.startTime + D < env.timeAt i)
    (hcb : env.callback i = Except.error e)
    (hev : env.error_validator e = true) :
    is_last_call (last_call_at env.startTime args.max_total_retry_duration)
        (env.timeAt i) = true ∧
      (retry_until_successful env args (i + 1)).map
        (fun r => (r.outcome, r.sleeps.length)) = some (Outcome.raised e, i) := by
  have hlca : last_call_at env.startTime args.max_total_retry_duration =
      some (env.startTime + D) := by
    rw [hD]
    simp [last_call_at, hD0]
  have hil : is_last_call (some (env.startTime + D)) (env.timeAt i) = true := by
    simp [is_last_call, hti]
  refine ⟨by rw [hlca]; exact hil, ?_⟩
  rw [retry_until_successful, hlca]
  have hpre2 : ∀ j, j < i → attempt_step
      (is_last_call (some (env.startTime + D)) (env.timeAt (0 + j)))
      (env.callback (0 + j)) env.response_validator env.error_validator =
      (StepResult.retryAgain, (fun k => [es k]) j) := by
    intro j hj
    rw [Nat.zero_add]
    obtain ⟨hcbj, hevj, htj⟩ := hpre j hj
    have hilj : is_last_call (some (env.startTime + D)) (env.timeAt j) = false := by
      simp [is_last_call]
      omega
    rw [hcbj, hilj]
    exact attempt_step_retry_error rfl hevj
  rw [run_loop_retries env (some (env.startTime + D)) args.max_retry_delay 1 i
    (fun k => [es k]) 0 args.initial_retry_delay hpre2]
  rw [Nat.zero_add, run_loop_one, hcb, hil, attempt_step_raise_last]
  simp

/-- C7 witness: deadline `5`, first iteration at time `3` (retryable error
`0`), second at time `10`: the error `1` raised there is propagated after
exactly one sleep. -/
theorem c7_deadline_elapsed_propagates_witness :
    is_last_call (last_call_at c7EnvW.startTime c7ArgsW.max_total_retry_duration)
        (c7EnvW.timeAt 1) = true ∧
      (retry_until_successful c7EnvW c7ArgsW 2).map
        (fun r => (r.outcome, r.sleeps.length)) = some (Outcome.raised 1, 1) :=
  c7_deadline_elapsed_propagates c7EnvW c7ArgsW 5 1 (fun j => j) 1 rfl
    (by decide) (by decide) (by decide) rfl rfl

end RetryUtils
